import Mathlib

/-!
Shallow embedding of the worktree-creation core of gh-worktree.

The embedded code: `createWorktree` (cmd create command, the central creation
function), the branch-check callback `runCreate` passes to the worktree
creator, `git.BranchDelete`'s argument construction, `SanitizeBranchName`,
and `DetermineWorktreeType` with its two anchored RE2 patterns.

External collaborators (git processes, the interactive prompter, net/url's
Parse) are modelled by an explicit outcome record `Env` and by passing the
parse result in; repository state is the abstract `GitState`.  Operations of
the `worktree` package whose sources are not in the repository snapshot
(`worktree.Exists`, `worktree.Attach`, `worktree.Create`) are modelled from
the spec, each marked so in its doc comment.
-/

namespace GhWorktree

/-- Result of a create-flow call: `ok` is Go's nil error, `err` a non-nil
error with its message. -/
inductive CreateResult
  | ok
  | err (msg : String)
deriving DecidableEq, Repr

/-- Abstract repository state seen through the git collaborator: the branch
names that exist, the registered worktree paths, and the directories on
disk. -/
structure GitState where
  branches : List String
  worktrees : List String
  dirs : List String
deriving DecidableEq, Repr

/-- One external operation the create flow can perform; a call returns the
trace of the operations it performed, in order. -/
inductive GitOp
  | promptSelect
  | branchDelete (branch : String) (force : Bool)
  | attachWorktree (path branch : String)
  | createBranch (branch : String)
  | registerWorktree (path : String)
  | rollbackDeleteBranch (branch : String)
  | removeDir (path : String)
deriving DecidableEq, Repr

/-- Outcomes of the fallible external collaborators during one call: the
prompt's selection (`none` is a prompt error), and success of the attach,
branch-delete, branch-create and worktree-register primitives. -/
structure Env where
  promptChoice : Option Nat
  attachOk : Bool
  deleteOk : Bool
  createBranchOk : Bool
  registerOk : Bool
deriving DecidableEq, Repr

/-- git.BranchExists: `git show-ref --verify --quiet refs/heads/<branch>`
succeeds exactly when the branch exists in the repository. -/
def BranchExists (s : GitState) (b : String) : Bool :=
  s.branches.contains b

/-- The argument list git.BranchDelete builds: `["branch", "-d"]`, index 1
overwritten with `"-D"` when `force` is set, then the branch name appended. -/
def branchDeleteArgs (branch : String) (force : Bool) : List String :=
  let args := ["branch", "-d"]
  let args := if force then args.set 1 "-D" else args
  args ++ [branch]

/-- Effect of one git.BranchDelete invocation as the create flow sees it:
the external call either succeeds (the branch is removed) or fails (state
unchanged). -/
def gitBranchDelete (e : Env) (s : GitState) (b : String) : Bool × GitState :=
  if e.deleteOk then (true, { s with branches := s.branches.filter fun x => x != b })
  else (false, s)

/-- Modelled from the spec: the RepositoryOps `deleteBranch(name, force)` row
of the external-interface table — "error if branch has unmerged work and
`force` is false"; the git implementation behind it is not in the sources. -/
def deleteBranchOp (s : GitState) (b : String) (force unmerged : Bool) :
    CreateResult × GitState :=
  if unmerged && !force then (.err "branch not fully merged", s)
  else (.ok, { s with branches := s.branches.filter fun x => x != b })

/-- Modelled from the spec: `worktree.Exists`, used by createWorktree's first
step, is not in the sources; per the spec it verifies the target path "is not
an existing, registered worktree" — a read-only registration query. -/
def wtExists (s : GitState) (p : String) : Bool :=
  s.worktrees.contains p

/-- Modelled from the spec: `worktree.Attach` is not in the sources; per the
spec the Attach decision registers a worktree at the path against the
existing branch, "skipping branch creation entirely", and "any failure here
rolls back only the registration attempt (the branch is never touched)". -/
def wtAttach (e : Env) (s : GitState) (p : String) : CreateResult × GitState :=
  if e.attachOk then
    (.ok, { s with worktrees := p :: s.worktrees, dirs := p :: s.dirs })
  else (.err "failed to attach worktree", s)

/-- Modelled from the spec: `worktree.Create` is not in the sources; per the
spec it creates a new branch from the start point, then registers a worktree
at the path pointing at it, and "if branch creation succeeds but registration
fails, rollback deletes the just-created branch". -/
def wtCreate (e : Env) (s : GitState) (p b : String) :
    CreateResult × GitState × List GitOp :=
  if e.createBranchOk then
    if e.registerOk then
      (.ok,
       { s with branches := b :: s.branches,
                worktrees := p :: s.worktrees, dirs := p :: s.dirs },
       [.createBranch b, .registerWorktree p])
    else
      (.err "failed to register worktree",
       { s with branches := (b :: s.branches).filter fun x => x != b },
       [.createBranch b, .registerWorktree p, .rollbackDeleteBranch b])
  else (.err "failed to create branch", s, [.createBranch b])

/-- Step 3 of createWorktree: run `worktree.Create` and, on failure, remove
the target directory if it exists (the source's cleanup after a failed
create). -/
def plainCreate (e : Env) (p b : String) (s : GitState) :
    CreateResult × GitState × List GitOp :=
  match wtCreate e s p b with
  | (.ok, s1, ops) => (.ok, s1, ops)
  | (.err m, s1, ops) =>
    if wtExists s1 p then
      (.err m, { s1 with dirs := s1.dirs.filter fun x => x != p }, ops ++ [.removeDir p])
    else (.err m, s1, ops)

/-- createWorktree, the central creation function of the create command:
fail if the target path is already a worktree; if the branch exists, either
attach (use-existing flag), or ask the prompter to choose among Overwrite
(0), Attach (1) and Cancel (2) — a prompt error or Cancel returns the
"operation cancelled" error, Overwrite force-deletes the branch first and a
failed delete fails the call; otherwise plain creation.  A selection outside
0..2 falls through the Go switch to plain creation.  Returns the result, the
final state and the trace of operations. -/
def createWorktree (e : Env) (useExisting : Bool) (path branch : String)
    (s : GitState) : CreateResult × GitState × List GitOp :=
  if wtExists s path then
    (.err "worktree directory already exists", s, [])
  else if BranchExists s branch then
    if useExisting then
      let a := wtAttach e s path
      (a.1, a.2, [GitOp.attachWorktree path branch])
    else
      match e.promptChoice with
      | none => (.err "operation cancelled", s, [.promptSelect])
      | some 0 =>
        let d := gitBranchDelete e s branch
        if d.1 then
          let r := plainCreate e path branch d.2
          (r.1, r.2.1, GitOp.promptSelect :: GitOp.branchDelete branch true :: r.2.2)
        else
          (.err "failed to delete branch", d.2,
           [GitOp.promptSelect, GitOp.branchDelete branch true])
      | some 1 =>
        let a := wtAttach e s path
        (a.1, a.2, [GitOp.promptSelect, GitOp.attachWorktree path branch])
      | some 2 => (.err "operation cancelled", s, [.promptSelect])
      | some _ =>
        let r := plainCreate e path branch s
        (r.1, r.2.1, GitOp.promptSelect :: r.2.2)
  else
    plainCreate e path branch s

/-- worktree.BranchAction, the decision values used by the branch-check
callback in runCreate. -/
inductive BranchAction
  | overwrite
  | attach
  | cancel
deriving DecidableEq, Repr

/-- What one run of the branch-check callback produced: the chosen action,
whether the interactive prompt was consulted, the trace of operations and the
repository state afterwards. -/
structure CallbackResult where
  action : BranchAction
  promptInvoked : Bool
  ops : List GitOp
  state : GitState
deriving DecidableEq, Repr

/-- The branch-check callback runCreate passes to the worktree creator: when
the branch exists, force deletes it (force=true) and yields Overwrite, or
Cancel if the deletion fails; else the use-existing flag yields Attach; else
a three-way prompt decides (indices 0/1/2, anything else Cancel), a selected
Overwrite again deleting the branch first and yielding Cancel if that fails.
When the branch does not exist the callback yields Overwrite. -/
def branchCheck (e : Env) (force useExisting : Bool) (branch : String)
    (s : GitState) : CallbackResult :=
  if BranchExists s branch then
    if force then
      let d := gitBranchDelete e s branch
      if d.1 then ⟨.overwrite, false, [.branchDelete branch true], d.2⟩
      else ⟨.cancel, false, [.branchDelete branch true], d.2⟩
    else if useExisting then ⟨.attach, false, [], s⟩
    else
      match e.promptChoice with
      | none => ⟨.cancel, true, [.promptSelect], s⟩
      | some n =>
        let selected : BranchAction :=
          match n with
          | 0 => .overwrite
          | 1 => .attach
          | 2 => .cancel
          | _ => .cancel
        if selected = .overwrite then
          let d := gitBranchDelete e s branch
          if d.1 then ⟨.overwrite, true, [.promptSelect, .branchDelete branch true], d.2⟩
          else ⟨.cancel, true, [.promptSelect, .branchDelete branch true], d.2⟩
        else ⟨selected, true, [.promptSelect], s⟩
  else ⟨.overwrite, false, [], s⟩

/-- The character class `[a-zA-Z0-9_-]` of SanitizeBranchName's regular
expression. -/
def isAllowedChar (c : Char) : Bool :=
  ('a' ≤ c && c ≤ 'z') || ('A' ≤ c && c ≤ 'Z') || ('0' ≤ c && c ≤ '9') ||
    c == '_' || c == '-'

/-- The per-character action of `ReplaceAllString` with the single-rune
class `[^a-zA-Z0-9_-]` and replacement "_". -/
def sanitizeChar (c : Char) : Char :=
  if isAllowedChar c then c else '_'

/-- `ReplaceAllString` applies `sanitizeChar` to every rune. -/
def sanitizeChars (cs : List Char) : List Char :=
  cs.map sanitizeChar

/-- SanitizeBranchName: every character outside `[a-zA-Z0-9_-]` is replaced
by an underscore. -/
def SanitizeBranchName (name : String) : String :=
  ⟨sanitizeChars name.data⟩

/-- The three worktree kinds of DetermineWorktreeType. -/
inductive WorktreeType
  | Issue
  | PR
  | Local
deriving DecidableEq, Repr

def isDigitChar (c : Char) : Bool := '0' ≤ c && c ≤ '9'

/-- Consume characters up to and including the next '/'. -/
def dropSegRest : List Char → Option (List Char)
  | [] => none
  | c :: cs => if c = '/' then some cs else dropSegRest cs

/-- `[^/]+/`: at least one non-'/' character, then a '/'; returns what
follows the '/'. -/
def dropSeg1 : List Char → Option (List Char)
  | [] => none
  | c :: cs => if c = '/' then none else dropSegRest cs

/-- Match a literal character sequence, returning the rest on success. -/
def matchChars : List Char → List Char → Option (List Char)
  | [], rest => some rest
  | _ :: _, [] => none
  | k :: ks, c :: cs => if c = k then matchChars ks cs else none

/-- `.*$` in RE2's default mode: '.' matches every character but a newline. -/
def noNewline (cs : List Char) : Bool :=
  cs.all fun c => c != '\n'

/-- After the leading digit of `\d+(?:/.*)?$`: more digits, then either the
end of the text or a '/' followed by a newline-free rest. -/
def digitsTail : List Char → Bool
  | [] => true
  | c :: cs =>
    if isDigitChar c then digitsTail cs
    else if c = '/' then noNewline cs
    else false

/-- `\d+(?:/.*)?$`: at least one digit, then `digitsTail`. -/
def digitsTail1 : List Char → Bool
  | [] => false
  | c :: cs => isDigitChar c && digitsTail cs

/-- The anchored pattern `^/[^/]+/[^/]+/<kw>\d+(?:/.*)?$` where `kw` is the
literal "pull/" or "issues/".  `[^/]` cannot cross a '/', so the RE2 match is
forced segment by segment and this sequential matcher is equivalent. -/
def pathMatches (kw : List Char) (path : List Char) : Bool :=
  match path with
  | [] => false
  | c :: rest =>
    if c = '/' then
      match dropSeg1 rest with
      | some r1 =>
        match dropSeg1 r1 with
        | some r2 =>
          match matchChars kw r2 with
          | some r3 => digitsTail1 r3
          | none => false
        | none => false
      | none => false
    else false

/-- The literal "pull/" of the PR pattern. -/
def pullKw : List Char := ['p', 'u', 'l', 'l', '/']

/-- The literal "issues/" of the issue pattern. -/
def issuesKw : List Char := ['i', 's', 's', 'u', 'e', 's', '/']

/-- The PR pattern `^/[^/]+/[^/]+/pull/\d+(?:/.*)?$` applied to a path. -/
def prPattern (path : String) : Bool := pathMatches pullKw path.data

/-- The issue pattern `^/[^/]+/[^/]+/issues/\d+(?:/.*)?$` applied to a path. -/
def issuePattern (path : String) : Bool := pathMatches issuesKw path.data

/-- Scheme and path of a URL as net/url's Parse (an external collaborator)
returns them. -/
structure ParsedUrl where
  scheme : String
  path : String
deriving DecidableEq, Repr

/-- DetermineWorktreeType over the outcome of the external url.Parse call
(`none` is a Parse error): a Parse error, an empty scheme or a non-http(s)
scheme yields Local; otherwise the PR pattern is tried on the path first,
then the issues pattern.  The second component carries the Go error return,
which the source sets to nil in every branch. -/
def DetermineWorktreeType (parsed : Option ParsedUrl) : WorktreeType × Option String :=
  match parsed with
  | none => (.Local, none)
  | some u =>
    if u.scheme = "" then (.Local, none)
    else if u.scheme != "http" && u.scheme != "https" then (.Local, none)
    else if prPattern u.path then (.PR, none)
    else if issuePattern u.path then (.Issue, none)
    else (.Local, none)

/-! Theorems. -/

theorem sanitizeChar_allowed (c : Char) : isAllowedChar (sanitizeChar c) = true := by
  by_cases h : isAllowedChar c = true
  · simp [sanitizeChar, h]
  · have hc : sanitizeChar c = '_' := by simp [sanitizeChar, h]
    rw [hc]
    decide

theorem sanitizeChar_idem (c : Char) : sanitizeChar (sanitizeChar c) = sanitizeChar c := by
  by_cases h : isAllowedChar c = true
  · have hc : sanitizeChar c = c := by simp [sanitizeChar, h]
    rw [hc]
    exact hc
  · have hc : sanitizeChar c = '_' := by simp [sanitizeChar, h]
    rw [hc]
    decide

/-- C8: SanitizeBranchName preserves the length of its input, every character
of the result lies in `[a-zA-Z0-9_-]`, each character already in that class
is kept and every other character becomes '_' (the result is the character-wise
image under `sanitizeChar`), and the function is idempotent. -/
theorem sanitizeBranchName_spec (s : String) :
    (SanitizeBranchName s).length = s.length ∧
    (SanitizeBranchName s).data.all isAllowedChar = true ∧
    (SanitizeBranchName s).data = s.data.map sanitizeChar ∧
    SanitizeBranchName (SanitizeBranchName s) = SanitizeBranchName s := by
  refine ⟨?_, ?_, rfl, ?_⟩
  · show (sanitizeChars s.data).length = s.data.length
    simp [sanitizeChars]
  · simp only [SanitizeBranchName, sanitizeChars, List.all_map, List.all_eq_true]
    intro c _
    exact sanitizeChar_allowed c
  · apply String.ext
    simp [SanitizeBranchName, sanitizeChars, List.map_map, Function.comp,
      sanitizeChar_idem]

theorem matchChars_head (k : Char) (ks r t : List Char)
    (h : matchChars (k :: ks) r = some t) : ∃ cs, r = k :: cs := by
  cases r with
  | nil => simp [matchChars] at h
  | cons c cs =>
    by_cases hc : c = k
    · exact ⟨cs, by rw [hc]⟩
    · simp [matchChars, hc] at h

/-- The PR pattern and the issues pattern cannot both match one path: the
third path segment would have to start with both 'p' and 'i'. -/
theorem pathMatches_pull_issues (p : List Char)
    (h1 : pathMatches pullKw p = true) (h2 : pathMatches issuesKw p = true) :
    False := by
  cases p with
  | nil => simp [pathMatches] at h1
  | cons c rest =>
    simp only [pathMatches] at h1 h2
    by_cases hc : c = '/'
    · rw [if_pos hc] at h1 h2
      rcases hseg : dropSeg1 rest with _ | r1
      · simp [hseg] at h1
      · simp only [hseg] at h1 h2
        rcases hseg2 : dropSeg1 r1 with _ | r2
        · simp [hseg2] at h1
        · simp only [hseg2] at h1 h2
          rcases hm1 : matchChars pullKw r2 with _ | r3
          · simp [hm1] at h1
          · rcases hm2 : matchChars issuesKw r2 with _ | r4
            · simp [hm2] at h2
            · obtain ⟨cs1, hcs1⟩ :=
                matchChars_head 'p' ['u', 'l', 'l', '/'] r2 r3 hm1
              obtain ⟨cs2, hcs2⟩ :=
                matchChars_head 'i' ['s', 's', 'u', 'e', 's', '/'] r2 r4 hm2
              rw [hcs1] at hcs2
              injection hcs2 with h5 _
              exact absurd h5 (by decide)
    · rw [if_neg hc] at h1
      simp at h1

/-- C9: DetermineWorktreeType never returns a non-nil error; it returns PR
exactly for parsed http/https URLs whose path matches the PR pattern, Issue
exactly for parsed http/https URLs whose path matches the issues pattern, and
Local in every other case (the Parse-error case included). -/
theorem determineWorktreeType_spec (r : Option ParsedUrl) :
    (DetermineWorktreeType r).2 = none ∧
    ((DetermineWorktreeType r).1 = WorktreeType.PR ↔
      ∃ u, r = some u ∧ (u.scheme = "http" ∨ u.scheme = "https") ∧
        prPattern u.path = true) ∧
    ((DetermineWorktreeType r).1 = WorktreeType.Issue ↔
      ∃ u, r = some u ∧ (u.scheme = "http" ∨ u.scheme = "https") ∧
        issuePattern u.path = true) := by
  cases r with
  | none =>
    refine ⟨rfl, ?_, ?_⟩ <;> simp [DetermineWorktreeType]
  | some u =>
    by_cases h1 : u.scheme = "http" ∨ u.scheme = "https"
    · have h0 : ¬u.scheme = "" := by rcases h1 with h | h <;> simp [h]
      have hg : (u.scheme != "http" && u.scheme != "https") = false := by
        rcases h1 with h | h <;> simp [h]
      by_cases hp : prPattern u.path = true
      · have hi : ¬issuePattern u.path = true := fun hi =>
          pathMatches_pull_issues u.path.data hp hi
        have hres : DetermineWorktreeType (some u) = (.PR, none) := by
          simp [DetermineWorktreeType, h0, hg, hp]
        rw [hres]
        refine ⟨rfl, ?_, ?_⟩
        · simp only [true_iff]
          · exact ⟨u, rfl, h1, hp⟩
        · simp [hi]
      · by_cases hq : issuePattern u.path = true
        · have hres : DetermineWorktreeType (some u) = (.Issue, none) := by
            simp [DetermineWorktreeType, h0, hg, hp, hq]
          rw [hres]
          refine ⟨rfl, ?_, ?_⟩
          · simp [hp]
          · simp only [true_iff]
            · exact ⟨u, rfl, h1, hq⟩
        · have hres : DetermineWorktreeType (some u) = (.Local, none) := by
            simp [DetermineWorktreeType, h0, hg, hp, hq]
          rw [hres]
          refine ⟨rfl, ?_, ?_⟩
          · simp [hp]
          · simp [hq]
    · push_neg at h1
      obtain ⟨hh1, hh2⟩ := h1
      have hside : ∀ v : ParsedUrl, v = u →
          ¬(v.scheme = "http" ∨ v.scheme = "https") := by
        intro v hv
        rw [hv]
        rintro (h | h)
        · exact hh1 h
        · exact hh2 h
      by_cases h0 : u.scheme = ""
      · have hres : DetermineWorktreeType (some u) = (.Local, none) := by
          simp [DetermineWorktreeType, h0]
        rw [hres]
        refine ⟨rfl, iff_of_false (by simp) ?_, iff_of_false (by simp) ?_⟩
        · rintro ⟨v, hv, hsch, _⟩
          exact hside v (by injection hv with h; exact h.symm) hsch
        · rintro ⟨v, hv, hsch, _⟩
          exact hside v (by injection hv with h; exact h.symm) hsch
      · have hg : (u.scheme != "http" && u.scheme != "https") = true := by
          simp [hh1, hh2]
        have hres : DetermineWorktreeType (some u) = (.Local, none) := by
          simp [DetermineWorktreeType, h0, hg]
        rw [hres]
        refine ⟨rfl, iff_of_false (by simp) ?_, iff_of_false (by simp) ?_⟩
        · rintro ⟨v, hv, hsch, _⟩
          exact hside v (by injection hv with h; exact h.symm) hsch
        · rintro ⟨v, hv, hsch, _⟩
          exact hside v (by injection hv with h; exact h.symm) hsch

theorem plainCreate_ops_mem (e : Env) (p b : String) (s : GitState) (op : GitOp)
    (h : op ∈ (plainCreate e p b s).2.2) :
    op = GitOp.createBranch b ∨ op = GitOp.registerWorktree p ∨
      op = GitOp.rollbackDeleteBranch b ∨ op = GitOp.removeDir p := by
  rcases e with ⟨pc, aok, dok, cok, rok⟩
  cases cok <;> cases rok <;>
    simp only [plainCreate, wtCreate, Bool.false_eq_true, if_true, if_false] at h <;>
    first
      | (split at h <;> simp at h <;> tauto)
      | (simp at h; tauto)

/-- C2: when the target path is already a registered worktree, createWorktree
fails with the path-conflict error, performs no operation and leaves the
repository state unchanged. -/
theorem createWorktree_path_conflict (e : Env) (u : Bool) (p b : String)
    (s : GitState) (h : wtExists s p = true) :
    createWorktree e u p b s =
      (CreateResult.err "worktree directory already exists", s, []) := by
  simp [createWorktree, h]

theorem createWorktree_path_conflict_witness :
    createWorktree ⟨none, true, true, true, true⟩ false "w" "b" ⟨[], ["w"], ["w"]⟩ =
      (CreateResult.err "worktree directory already exists", ⟨[], ["w"], ["w"]⟩, []) :=
  createWorktree_path_conflict _ _ _ _ _ (by decide)

/-- C5: when the target branch does not exist, the decision source (the
prompt) is never consulted, and when the path check passes the call is
exactly plain creation. -/
theorem createWorktree_no_conflict (e : Env) (u : Bool) (p b : String)
    (s : GitState) (h : BranchExists s b = false) :
    GitOp.promptSelect ∉ (createWorktree e u p b s).2.2 ∧
      (wtExists s p = false → createWorktree e u p b s = plainCreate e p b s) := by
  by_cases hw : wtExists s p = true
  · constructor
    · simp [createWorktree, hw]
    · intro hf
      rw [hf] at hw
      cases hw
  · have hw' : wtExists s p = false := by simpa using hw
    have heq : createWorktree e u p b s = plainCreate e p b s := by
      simp [createWorktree, hw', h]
    refine ⟨?_, fun _ => heq⟩
    rw [heq]
    intro hmem
    rcases plainCreate_ops_mem e p b s _ hmem with h1 | h1 | h1 | h1 <;> simp at h1

theorem createWorktree_no_conflict_witness :
    GitOp.promptSelect ∉
        (createWorktree ⟨some 0, true, true, true, true⟩ false "w" "b"
          ⟨[], [], []⟩).2.2 ∧
      (wtExists ⟨[], [], []⟩ "w" = false →
        createWorktree ⟨some 0, true, true, true, true⟩ false "w" "b" ⟨[], [], []⟩ =
          plainCreate ⟨some 0, true, true, true, true⟩ "w" "b" ⟨[], [], []⟩) :=
  createWorktree_no_conflict _ _ _ _ _ (by decide)

/-- C1: when branch creation succeeds but worktree registration fails, the
rollback deletes the just-created branch: the call returns an error and a
subsequent BranchExists query on the final state is false, on both the
no-conflict path and the Overwrite path (prompt choice 0, deletion ok). -/
theorem createWorktree_rollback_branch (e : Env) (p b : String) (s : GitState)
    (hc : e.createBranchOk = true) (hr : e.registerOk = false)
    (hp : wtExists s p = false) :
    (BranchExists s b = false →
      (createWorktree e false p b s).1 ≠ CreateResult.ok ∧
        BranchExists (createWorktree e false p b s).2.1 b = false) ∧
    (BranchExists s b = true → e.promptChoice = some 0 → e.deleteOk = true →
      (createWorktree e false p b s).1 ≠ CreateResult.ok ∧
        BranchExists (createWorktree e false p b s).2.1 b = false) := by
  rcases e with ⟨pc, aok, dok, cok, rok⟩
  simp only at hc hr
  subst hc
  subst hr
  have hp2 : p ∉ s.worktrees := by simpa [wtExists] using hp
  constructor
  · intro hb
    have hb2 : b ∉ s.branches := by simpa [BranchExists] using hb
    constructor <;>
      simp [createWorktree, plainCreate, wtCreate, wtExists, BranchExists, hp2, hb2]
  · intro hb hpc hd
    have hb2 : b ∈ s.branches := by simpa [BranchExists] using hb
    simp only at hd
    subst hd
    subst hpc
    constructor <;>
      simp [createWorktree, plainCreate, wtCreate, wtExists, BranchExists,
        gitBranchDelete, hp2, hb2]

theorem createWorktree_rollback_branch_witness :
    (BranchExists ⟨[], [], []⟩ "b" = false →
      (createWorktree ⟨some 0, true, true, true, false⟩ false "w" "b"
          ⟨[], [], []⟩).1 ≠ CreateResult.ok ∧
        BranchExists
          (createWorktree ⟨some 0, true, true, true, false⟩ false "w" "b"
            ⟨[], [], []⟩).2.1 "b" = false) ∧
    (BranchExists ⟨[], [], []⟩ "b" = true →
      Env.promptChoice ⟨some 0, true, true, true, false⟩ = some 0 →
      Env.deleteOk ⟨some 0, true, true, true, false⟩ = true →
      (createWorktree ⟨some 0, true, true, true, false⟩ false "w" "b"
          ⟨[], [], []⟩).1 ≠ CreateResult.ok ∧
        BranchExists
          (createWorktree ⟨some 0, true, true, true, false⟩ false "w" "b"
            ⟨[], [], []⟩).2.1 "b" = false) :=
  createWorktree_rollback_branch _ _ _ _ (by decide) (by decide) (by decide)

/-- C3 (amended): when the conflict decision is Cancel (prompt choice 2),
createWorktree performs no mutation and terminates with the
"operation cancelled" error result — the source reports cancellation through
a non-nil error, not as a non-error outcome. -/
theorem createWorktree_cancel (e : Env) (p b : String) (s : GitState)
    (hp : wtExists s p = false) (hb : BranchExists s b = true)
    (hc : e.promptChoice = some 2) :
    createWorktree e false p b s =
      (CreateResult.err "operation cancelled", s, [GitOp.promptSelect]) := by
  simp [createWorktree, hp, hb, hc]

theorem createWorktree_cancel_witness :
    createWorktree ⟨some 2, true, true, true, true⟩ false "w" "f" ⟨["f"], [], []⟩ =
      (CreateResult.err "operation cancelled", ⟨["f"], [], []⟩, [GitOp.promptSelect]) :=
  createWorktree_cancel _ _ _ _ (by decide) (by decide) (by decide)

/-- C3 counterexample: with branch "f" existing and the prompt choosing
Cancel, createWorktree returns the non-nil error "operation cancelled" — the
Cancel outcome is an error, contrary to the claim that it is not. -/
theorem createWorktree_cancel_cex :
    (createWorktree ⟨some 2, true, true, true, true⟩ false "w" "f"
        ⟨["f"], [], []⟩).1 = CreateResult.err "operation cancelled" ∧
      (createWorktree ⟨some 2, true, true, true, true⟩ false "w" "f"
        ⟨["f"], [], []⟩).1 ≠ CreateResult.ok := by
  decide

/-- C4 (amended): when the branch exists and force is set, the branch-check
callback never consults the prompt and ignores use-existing, but the decision
is Overwrite only when the forced branch deletion succeeds; a failed deletion
yields Cancel. -/
theorem branchCheck_force (e : Env) (u : Bool) (b : String) (s : GitState)
    (hb : BranchExists s b = true) :
    (branchCheck e true u b s).promptInvoked = false ∧
      (branchCheck e true u b s).action =
        (if e.deleteOk then BranchAction.overwrite else BranchAction.cancel) := by
  rcases e with ⟨pc, aok, dok, cok, rok⟩
  have hb2 : b ∈ s.branches := by simpa [BranchExists] using hb
  cases dok <;> simp [branchCheck, gitBranchDelete, BranchExists, hb2]

theorem branchCheck_force_witness :
    (branchCheck ⟨none, true, true, true, true⟩ true true "b"
        ⟨["b"], [], []⟩).promptInvoked = false ∧
      (branchCheck ⟨none, true, true, true, true⟩ true true "b"
          ⟨["b"], [], []⟩).action =
        (if Env.deleteOk ⟨none, true, true, true, true⟩ then BranchAction.overwrite
         else BranchAction.cancel) :=
  branchCheck_force _ _ _ _ (by decide)

/-- C4 counterexample: force=true and useExisting=true with branch "b"
existing, but the forced deletion fails: the decision is Cancel, not
Overwrite as the claim states. -/
theorem branchCheck_force_cex :
    (branchCheck ⟨none, true, false, true, true⟩ true true "b"
        ⟨["b"], [], []⟩).action = BranchAction.cancel ∧
      (branchCheck ⟨none, true, false, true, true⟩ true true "b"
        ⟨["b"], [], []⟩).action ≠ BranchAction.overwrite := by
  decide

/-- C6: on the Overwrite decision (prompt choice 0) the existing branch is
deleted before creation proceeds: a failed deletion fails the whole call
with nothing created, and after a successful deletion the rest of the call
is exactly plain creation on the branch-deleted state, the forced delete
preceding every creation operation in the trace. -/
theorem createWorktree_overwrite (e : Env) (p b : String) (s : GitState)
    (hp : wtExists s p = false) (hb : BranchExists s b = true)
    (hc : e.promptChoice = some 0) :
    (e.deleteOk = false →
      createWorktree e false p b s =
        (CreateResult.err "failed to delete branch", s,
         [GitOp.promptSelect, GitOp.branchDelete b true])) ∧
    (e.deleteOk = true →
      createWorktree e false p b s =
        ((plainCreate e p b { s with branches := s.branches.filter fun x => x != b }).1,
         (plainCreate e p b { s with branches := s.branches.filter fun x => x != b }).2.1,
         GitOp.promptSelect :: GitOp.branchDelete b true ::
           (plainCreate e p b
             { s with branches := s.branches.filter fun x => x != b }).2.2)) := by
  constructor <;> intro hd <;>
    simp [createWorktree, hp, hb, hc, gitBranchDelete, hd]

theorem createWorktree_overwrite_witness :
    (Env.deleteOk ⟨some 0, true, false, true, true⟩ = false →
      createWorktree ⟨some 0, true, false, true, true⟩ false "w" "b" ⟨["b"], [], []⟩ =
        (CreateResult.err "failed to delete branch", ⟨["b"], [], []⟩,
         [GitOp.promptSelect, GitOp.branchDelete "b" true])) ∧
    (Env.deleteOk ⟨some 0, true, false, true, true⟩ = true →
      createWorktree ⟨some 0, true, false, true, true⟩ false "w" "b" ⟨["b"], [], []⟩ =
        ((plainCreate ⟨some 0, true, false, true, true⟩ "w" "b"
            { branches := List.filter (fun x => x != "b") ["b"], worktrees := [],
              dirs := [] }).1,
         (plainCreate ⟨some 0, true, false, true, true⟩ "w" "b"
            { branches := List.filter (fun x => x != "b") ["b"], worktrees := [],
              dirs := [] }).2.1,
         GitOp.promptSelect :: GitOp.branchDelete "b" true ::
           (plainCreate ⟨some 0, true, false, true, true⟩ "w" "b"
              { branches := List.filter (fun x => x != "b") ["b"], worktrees := [],
                dirs := [] }).2.2)) :=
  createWorktree_overwrite _ _ _ _ (by decide) (by decide) (by decide)

/-- C7: on the Attach path (the use-existing flag, or prompt choice 1) no
branch is created or deleted: the trace holds only the attach operation, the
branch list is unchanged in every outcome, and a registration failure leaves
the whole state unchanged and returns an error. -/
theorem createWorktree_attach (e : Env) (p b : String) (s : GitState)
    (hp : wtExists s p = false) (hb : BranchExists s b = true) :
    ((createWorktree e true p b s).2.1.branches = s.branches ∧
      (createWorktree e true p b s).2.2 = [GitOp.attachWorktree p b] ∧
      (e.attachOk = false →
        (createWorktree e true p b s).2.1 = s ∧
          (createWorktree e true p b s).1 ≠ CreateResult.ok)) ∧
    (e.promptChoice = some 1 →
      (createWorktree e false p b s).2.1.branches = s.branches ∧
        (createWorktree e false p b s).2.2 =
          [GitOp.promptSelect, GitOp.attachWorktree p b] ∧
        (e.attachOk = false →
          (createWorktree e false p b s).2.1 = s ∧
            (createWorktree e false p b s).1 ≠ CreateResult.ok)) := by
  rcases e with ⟨pc, aok, dok, cok, rok⟩
  constructor
  · cases aok <;> simp [createWorktree, wtAttach, hp, hb]
  · intro hpc
    simp only at hpc
    subst hpc
    cases aok <;> simp [createWorktree, wtAttach, hp, hb]

theorem createWorktree_attach_witness :
    ((createWorktree ⟨some 1, false, true, true, true⟩ true "w" "b"
        ⟨["b"], [], []⟩).2.1.branches = List.cons "b" [] ∧
      (createWorktree ⟨some 1, false, true, true, true⟩ true "w" "b"
        ⟨["b"], [], []⟩).2.2 = [GitOp.attachWorktree "w" "b"] ∧
      (Env.attachOk ⟨some 1, false, true, true, true⟩ = false →
        (createWorktree ⟨some 1, false, true, true, true⟩ true "w" "b"
            ⟨["b"], [], []⟩).2.1 = ⟨["b"], [], []⟩ ∧
          (createWorktree ⟨some 1, false, true, true, true⟩ true "w" "b"
            ⟨["b"], [], []⟩).1 ≠ CreateResult.ok)) ∧
    (Env.promptChoice ⟨some 1, false, true, true, true⟩ = some 1 →
      (createWorktree ⟨some 1, false, true, true, true⟩ false "w" "b"
          ⟨["b"], [], []⟩).2.1.branches = List.cons "b" [] ∧
        (createWorktree ⟨some 1, false, true, true, true⟩ false "w" "b"
            ⟨["b"], [], []⟩).2.2 =
          [GitOp.promptSelect, GitOp.attachWorktree "w" "b"] ∧
        (Env.attachOk ⟨some 1, false, true, true, true⟩ = false →
          (createWorktree ⟨some 1, false, true, true, true⟩ false "w" "b"
              ⟨["b"], [], []⟩).2.1 = ⟨["b"], [], []⟩ ∧
            (createWorktree ⟨some 1, false, true, true, true⟩ false "w" "b"
              ⟨["b"], [], []⟩).1 ≠ CreateResult.ok)) :=
  createWorktree_attach _ _ _ _ (by decide) (by decide)

/-- Every operation a createWorktree trace can hold. -/
theorem createWorktree_ops_mem (e : Env) (u : Bool) (p b : String)
    (s : GitState) (op : GitOp) (h : op ∈ (createWorktree e u p b s).2.2) :
    op = GitOp.promptSelect ∨ op = GitOp.branchDelete b true ∨
      op = GitOp.attachWorktree p b ∨ op = GitOp.createBranch b ∨
      op = GitOp.registerWorktree p ∨ op = GitOp.rollbackDeleteBranch b ∨
      op = GitOp.removeDir p := by
  by_cases hw : wtExists s p = true
  · simp [createWorktree, hw] at h
  · have hw' : wtExists s p = false := by simpa using hw
    by_cases hb : BranchExists s b = true
    · rcases e with ⟨pc, aok, dok, cok, rok⟩
      cases u
      · rcases pc with _ | (_ | _ | _ | n)
        · simp [createWorktree, hw', hb] at h
          tauto
        · cases dok
          · simp [createWorktree, hw', hb, gitBranchDelete] at h
            tauto
          · simp [createWorktree, hw', hb, gitBranchDelete] at h
            rcases h with h | h | h
            · tauto
            · tauto
            · have := plainCreate_ops_mem _ p b _ op h
              tauto
        · cases aok <;> simp [createWorktree, hw', hb, wtAttach] at h <;> tauto
        · simp [createWorktree, hw', hb] at h
          tauto
        · simp [createWorktree, hw', hb] at h
          rcases h with h | h
          · tauto
          · have := plainCreate_ops_mem _ p b s op h
            tauto
      · cases aok <;> simp [createWorktree, hw', hb, wtAttach] at h <;> tauto
    · have hb' : BranchExists s b = false := by simpa using hb
      rw [show createWorktree e u p b s = plainCreate e p b s by
        simp [createWorktree, hw', hb']] at h
      have := plainCreate_ops_mem e p b s op h
      tauto

/-- C10: every branch deletion the create flow performs is forced: any
branchDelete operation in a createWorktree trace or in a branch-check
callback trace carries force=true; BranchDelete with force builds the
argument list `git branch -D <branch>`; and per the spec's deleteBranch
semantics a forced deletion does not fail on unmerged work. -/
theorem create_flow_forced_delete (e : Env) (u fo ue : Bool)
    (p b bb x : String) (s t w : GitState) (f um : Bool) :
    (GitOp.branchDelete x f ∈ (createWorktree e u p b s).2.2 → f = true) ∧
    (GitOp.branchDelete x f ∈ (branchCheck e fo ue bb t).ops → f = true) ∧
    branchDeleteArgs b true = ["branch", "-D", b] ∧
    (deleteBranchOp w b true um).1 = CreateResult.ok := by
  refine ⟨?_, ?_, rfl, ?_⟩
  · intro h
    rcases createWorktree_ops_mem e u p b s _ h with
      h1 | h1 | h1 | h1 | h1 | h1 | h1 <;> simp_all
  · intro h
    rcases e with ⟨pc, aok, dok, cok, rok⟩
    by_cases hb : BranchExists t bb = true
    · cases fo
      · cases ue
        · rcases pc with _ | (_ | _ | _ | n) <;>
            cases dok <;>
            simp [branchCheck, gitBranchDelete, hb] at h <;>
            tauto
        · simp [branchCheck, hb] at h
      · cases dok <;> simp [branchCheck, gitBranchDelete, hb] at h <;> tauto
    · have hb' : BranchExists t bb = false := by simpa using hb
      simp [branchCheck, hb'] at h
  · simp [deleteBranchOp]

end GhWorktree
